import Mathlib

/-!
Shallow embedding of `src/main.rs` of the proxy-stream repository: a tokio
TCP relay.  The program parses `Args`, binds a listener, and for each
accepted connection runs `handle_client`, which logs the peer address
(`client.peer_addr()?`), writes a fixed handshake byte string to the client,
dials the target, and spawns two forwarding pump tasks (client→server with a
packet-skip filter, server→client plain), finally awaiting both with
`tokio::try_join!`.

Sockets are modelled by the finite sequence of read events a pump observes:
`Ok(n)` with `n > 0` becomes `Event.data bytes wfail` (where `wfail` records
whether the matching `write_all` of that chunk would fail), `Ok(0)` becomes
`Event.eof`, and `Err(_)` becomes `Event.err`.  A pump that exhausts its
event list without hitting a `break` is still blocked in `read` — exit
status `Exit.running`.

Notably, the source contains no semaphore or connection limit, no timer or
idle timeout (`Args` has only `target_host`, `target_port`, `listen_port`,
`skip`), and no inter-task cancellation; the embedding therefore has none
either.
-/

/-- The command-line argument record of the source (`struct Args`): target
host and port, listen port, and the number of packets to skip.  These are
the only configuration fields the program has. -/
structure Args where
  target_host : String
  target_port : Nat
  listen_port : Nat
  skip : Nat
deriving DecidableEq, Repr

/-- The `clap` defaults from the source: host "127.0.0.1", target port 8080,
listen port 8888, skip 0. -/
def defaultArgs : Args :=
  { target_host := "127.0.0.1", target_port := 8080, listen_port := 8888, skip := 0 }

/-- One read event observed by a forwarding pump: `data bytes wfail` is
`Ok(n)` with `n > 0` returning `bytes` (and `wfail` says whether the
`write_all` of this chunk to the opposite socket would fail), `eof` is
`Ok(0)`, `err` is `Err(_)` from `read`. -/
inductive Event where
  | data (bytes : List Nat) (wfail : Bool)
  | eof
  | err
deriving DecidableEq, Repr

/-- How a pump loop left (or did not leave) its `loop`: clean EOF break,
read-error break, write-error break, or still blocked reading because its
event list ran out. -/
inductive Exit where
  | eofBreak
  | readErrBreak
  | writeErrBreak
  | running
deriving DecidableEq, Repr

/-- The client→server pump task of `handle_client`, translated from the
source loop:

  match client_read.read(&mut buffer).await {
    Ok(0) => break,
    Ok(n) => {
      if packet_count < skip { packet_count += 1; }
      else if packet_count == skip {
        if write_all fails { log; break; }  // forwards buffer[..n]
      }
      if packet_count > skip { packet_count = skip; }
    }
    Err(e) => { log; break; }
  }

Returns the chunks written to the server, the sequence of values the
`packet_count` variable takes (starting with its value at loop entry), and
the exit status.  In the branch `pc < skip` the increment yields
`pc + 1 ≤ skip`, so the trailing clamp is a no-op there; in the branch
`pc > skip` nothing is forwarded and the clamp resets the counter to
`skip`; a write failure breaks before the clamp runs. -/
def c2sLoop (skip : Nat) : Nat → List Event → List (List Nat) × List Nat × Exit
  | pc, [] => ([], [pc], Exit.running)
  | pc, Event.eof :: _ => ([], [pc], Exit.eofBreak)
  | pc, Event.err :: _ => ([], [pc], Exit.readErrBreak)
  | pc, Event.data bytes wfail :: rest =>
    if pc < skip then
      ((c2sLoop skip (pc + 1) rest).1,
       pc :: (c2sLoop skip (pc + 1) rest).2.1,
       (c2sLoop skip (pc + 1) rest).2.2)
    else if pc = skip then
      if wfail then ([], [pc], Exit.writeErrBreak)
      else
        (bytes :: (c2sLoop skip pc rest).1,
         pc :: (c2sLoop skip pc rest).2.1,
         (c2sLoop skip pc rest).2.2)
    else
      ((c2sLoop skip skip rest).1,
       pc :: (c2sLoop skip skip rest).2.1,
       (c2sLoop skip skip rest).2.2)

/-- The server→client pump task of `handle_client`, translated from the
source loop: every chunk read with `n > 0` is written through unmodified
(`client_write.write_all(&buffer[..n])`); `Ok(0)` and `Err` break, and a
write failure breaks.  Returns the chunks written to the client and the
exit status. -/
def s2cLoop : List Event → List (List Nat) × Exit
  | [] => ([], Exit.running)
  | Event.eof :: _ => ([], Exit.eofBreak)
  | Event.err :: _ => ([], Exit.readErrBreak)
  | Event.data bytes wfail :: rest =>
    if wfail then ([], Exit.writeErrBreak)
    else (bytes :: (s2cLoop rest).1, (s2cLoop rest).2)

/-- Event list for a client that delivers the given chunks with every write
succeeding (no errors in either direction). -/
def dataEvents (cs : List (List Nat)) : List Event :=
  cs.map (fun b => Event.data b false)

/-- Whether a pump task has completed (its `loop` was left by some `break`),
as opposed to still being blocked in `read`.  `tokio::try_join!` returns
once both pump tasks have completed. -/
def pumpDone : Exit → Bool
  | Exit.running => false
  | _ => true

/-- The handshake string written to the client by `handle_client`, copied
byte for byte from the source literal
b"HTTP/1.1 101 Switching Protocols\r\nContent-Length: 1048576000000\r\n\r\n". -/
def handshakeString : String :=
  "HTTP/1.1 101 Switching Protocols\r\nContent-Length: 1048576000000\r\n\r\n"

/-- The handshake as a byte sequence (ASCII values of `handshakeString`). -/
def handshakeBytes : List Nat :=
  handshakeString.toList.map Char.toNat

/-- Session-level actions of `handle_client`, in the order the source
performs them.  `closeSockets` stands for the drop of every socket (half)
still owned when the function returns. -/
inductive SessionAction where
  | logAccept
  | writeClient (bytes : List Nat)
  | hsWriteFail
  | dial
  | dialFail
  | joinPumps
  | logTerminated
  | closeSockets
deriving DecidableEq, Repr

/-- Result of a `handle_client` invocation: returned `Ok(())`, returned an
error, or has not returned (still awaiting `try_join`). -/
inductive Outcome where
  | ok
  | err
  | running
deriving DecidableEq, Repr

/-- `handle_client` from the source, as a trace of session-level actions
plus an outcome.  `paOk` is whether `client.peer_addr()` succeeds (its `?`
aborts the session before anything else), `hsOk` whether the handshake
`write_all` succeeds (its `?` aborts before the dial), `dialOk` whether
`TcpStream::connect` succeeds (its `?` aborts before the pumps are
spawned).  After a successful dial both pumps run on their own event lists;
`try_join` (and hence the terminating log line and the `Ok` return) is
reached exactly when both pumps have completed.  The pump tasks never
panic — each error path is a logged `break` — so `try_join` never yields a
`JoinError`.  Every return path drops (closes) the sockets the function
still owns. -/
def handleClient (paOk hsOk dialOk : Bool) (skip : Nat)
    (c2sEvents s2cEvents : List Event) : List SessionAction × Outcome :=
  if paOk = false then
    ([SessionAction.closeSockets], Outcome.err)
  else if hsOk = false then
    ([SessionAction.logAccept, SessionAction.hsWriteFail, SessionAction.closeSockets], Outcome.err)
  else if dialOk = false then
    ([SessionAction.logAccept, SessionAction.writeClient handshakeBytes, SessionAction.dialFail,
      SessionAction.closeSockets], Outcome.err)
  else if pumpDone (c2sLoop skip 0 c2sEvents).2.2 && pumpDone (s2cLoop s2cEvents).2 then
    ([SessionAction.logAccept, SessionAction.writeClient handshakeBytes, SessionAction.dial,
      SessionAction.joinPumps, SessionAction.logTerminated, SessionAction.closeSockets], Outcome.ok)
  else
    ([SessionAction.logAccept, SessionAction.writeClient handshakeBytes, SessionAction.dial],
     Outcome.running)

/-- One event at the acceptor: a successful `accept` (the session is
spawned immediately with `tokio::spawn`), a failed `accept` (its `?`
propagates out of `main`), or the completion of one previously spawned
session task. -/
inductive NetEvent where
  | accepted
  | acceptErr
  | sessionEnd
deriving DecidableEq, Repr

/-- The accept loop of `main`, translated from the source:

  loop {
    let (client, _) = listener.accept().await?;
    tokio::spawn(... handle_client(client, args) ...);
  }

processed over an interleaved schedule of accept results and session
completions.  `spawned` counts sessions ever spawned, `live` counts
sessions spawned and not yet completed.  A successful accept spawns
unconditionally — there is no admission gate, so `live` is never compared
against any bound.  An accept error returns immediately (the `?` exits
`main`), so later events are never processed.  Returns
(spawned, live, loop terminated by an accept error). -/
def acceptLoopRun : List NetEvent → Nat → Nat → Nat × Nat × Bool
  | [], spawned, live => (spawned, live, false)
  | NetEvent.accepted :: rest, spawned, live => acceptLoopRun rest (spawned + 1) (live + 1)
  | NetEvent.sessionEnd :: rest, spawned, live => acceptLoopRun rest spawned (live - 1)
  | NetEvent.acceptErr :: _, spawned, live => (spawned, live, true)

/-- `main` after argument parsing: `TcpListener::bind(...).await?` is fatal
on failure (no accept loop runs, `none`); on success the accept loop runs
on the schedule. -/
def mainRun (bindOk : Bool) (events : List NetEvent) : Option (Nat × Nat × Bool) :=
  if bindOk then some (acceptLoopRun events 0 0) else none

/-! Helper lemmas -/

theorem dataEvents_nil : dataEvents [] = [] := rfl

theorem dataEvents_cons (c : List Nat) (cs : List (List Nat)) :
    dataEvents (c :: cs) = Event.data c false :: dataEvents cs := rfl

theorem c2s_written_drop (cs : List (List Nat)) :
    ∀ skip pc, pc ≤ skip →
      (c2sLoop skip pc (dataEvents cs)).1 = cs.drop (skip - pc) := by
  induction cs with
  | nil => intro skip pc _; simp [dataEvents_nil, c2sLoop]
  | cons c cs ih =>
    intro skip pc h
    rw [dataEvents_cons, c2sLoop]
    rcases Nat.lt_or_ge pc skip with hlt | hge
    · simp only [if_pos hlt]
      rw [ih skip (pc + 1) hlt]
      have hs : skip - pc = (skip - (pc + 1)) + 1 := by omega
      rw [hs, List.drop_succ_cons]
    · have heq : pc = skip := Nat.le_antisymm h hge
      subst heq
      simp only [Nat.lt_irrefl, if_neg, if_pos rfl, Bool.false_eq_true, ite_false]
      rw [ih pc pc le_rfl]
      simp

theorem c2s_counter_le (evs : List Event) :
    ∀ skip pc, pc ≤ skip → ∀ v ∈ (c2sLoop skip pc evs).2.1, v ≤ skip := by
  induction evs with
  | nil => intro skip pc h v hv; simp [c2sLoop] at hv; omega
  | cons e rest ih =>
    intro skip pc h v hv
    cases e with
    | eof => simp [c2sLoop] at hv; omega
    | err => simp [c2sLoop] at hv; omega
    | data b w =>
      rw [c2sLoop] at hv
      rcases Nat.lt_or_ge pc skip with hlt | hge
      · rw [if_pos hlt] at hv
        rcases List.mem_cons.mp hv with rfl | hv2
        · exact h
        · exact ih skip (pc + 1) hlt v hv2
      · have heq : pc = skip := Nat.le_antisymm h hge
        subst heq
        rw [if_neg (Nat.lt_irrefl pc), if_pos rfl] at hv
        cases w with
        | true => simp at hv; omega
        | false =>
          simp only [Bool.false_eq_true, ite_false] at hv
          rcases List.mem_cons.mp hv with rfl | hv2
          · exact le_rfl
          · exact ih pc pc le_rfl v hv2

theorem c2s_counter_const (evs : List Event) :
    ∀ skip, ∀ v ∈ (c2sLoop skip skip evs).2.1, v = skip := by
  induction evs with
  | nil => intro skip v hv; simp [c2sLoop] at hv; omega
  | cons e rest ih =>
    intro skip v hv
    cases e with
    | eof => simp [c2sLoop] at hv; omega
    | err => simp [c2sLoop] at hv; omega
    | data b w =>
      rw [c2sLoop, if_neg (Nat.lt_irrefl skip), if_pos rfl] at hv
      cases w with
      | true => simp at hv; omega
      | false =>
        simp only [Bool.false_eq_true, ite_false] at hv
        rcases List.mem_cons.mp hv with rfl | hv2
        · rfl
        · exact ih skip v hv2

theorem s2c_app (cs : List (List Nat)) (tail : List Event) :
    s2cLoop (dataEvents cs ++ tail) = (cs ++ (s2cLoop tail).1, (s2cLoop tail).2) := by
  induction cs with
  | nil => simp [dataEvents_nil]
  | cons c cs ih =>
    rw [dataEvents_cons, List.cons_append, s2cLoop]
    simp [ih]

theorem acceptLoop_replicate (n : Nat) :
    ∀ s l, acceptLoopRun (List.replicate n NetEvent.accepted) s l = (s + n, l + n, false) := by
  induction n with
  | zero => intro s l; simp [acceptLoopRun]
  | succ n ih =>
    intro s l
    rw [List.replicate_succ, acceptLoopRun, ih]
    simp only [Prod.mk.injEq]
    exact ⟨by omega, by omega, trivial⟩

theorem acceptLoop_err_stops (pre : List NetEvent) :
    ∀ r1 r2 s l, NetEvent.acceptErr ∉ pre →
      acceptLoopRun (pre ++ NetEvent.acceptErr :: r1) s l =
        acceptLoopRun (pre ++ NetEvent.acceptErr :: r2) s l := by
  induction pre with
  | nil => intro r1 r2 s l _; simp [acceptLoopRun]
  | cons e pre ih =>
    intro r1 r2 s l h
    have hpre : NetEvent.acceptErr ∉ pre := fun hm => h (List.mem_cons_of_mem _ hm)
    cases e with
    | accepted => rw [List.cons_append, List.cons_append, acceptLoopRun, acceptLoopRun]; exact ih r1 r2 _ _ hpre
    | sessionEnd => rw [List.cons_append, List.cons_append, acceptLoopRun, acceptLoopRun]; exact ih r1 r2 _ _ hpre
    | acceptErr => exact absurd (List.mem_cons_self _ _) h

theorem acceptLoop_err_flag (pre : List NetEvent) :
    ∀ rest s l, NetEvent.acceptErr ∉ pre →
      (acceptLoopRun (pre ++ NetEvent.acceptErr :: rest) s l).2.2 = true := by
  induction pre with
  | nil => intro rest s l _; simp [acceptLoopRun]
  | cons e pre ih =>
    intro rest s l h
    have hpre : NetEvent.acceptErr ∉ pre := fun hm => h (List.mem_cons_of_mem _ hm)
    cases e with
    | accepted => rw [List.cons_append, acceptLoopRun]; exact ih rest _ _ hpre
    | sessionEnd => rw [List.cons_append, acceptLoopRun]; exact ih rest _ _ hpre
    | acceptErr => exact absurd (List.mem_cons_self _ _) h

/-! Claim theorems -/

/-- C1: for every configured skip count K, the client-to-destination pump
drops exactly the first K chunks read from the client and forwards chunk K
(0-indexed) and every later chunk byte-for-byte; with K = 0 every chunk is
forwarded unchanged (round-trip identity); and with K = 2 and three 10-byte
client chunks A, B, C the destination receives exactly C — never A, B, or a
partial chunk. -/
theorem c2s_skip_drop_exact :
    (∀ K cs, (c2sLoop K 0 (dataEvents cs)).1 = cs.drop K) ∧
    (∀ cs, (c2sLoop 0 0 (dataEvents cs)).1 = cs) ∧
    (c2sLoop 2 0 (dataEvents
      [[65, 65, 65, 65, 65, 65, 65, 65, 65, 65],
       [66, 66, 66, 66, 66, 66, 66, 66, 66, 66],
       [67, 67, 67, 67, 67, 67, 67, 67, 67, 67]])).1 =
      [[67, 67, 67, 67, 67, 67, 67, 67, 67, 67]] := by
  refine ⟨?_, ?_, by decide⟩
  · intro K cs
    simpa using c2s_written_drop cs K 0 (Nat.zero_le K)
  · intro cs
    simpa using c2s_written_drop cs 0 0 le_rfl

/-- C2 counterexample: the handshake is not written unconditionally on every
accepted connection — when the initial `client.peer_addr()?` fails, the
session aborts with an error and no handshake bytes are ever written. -/
theorem handshake_skipped_on_peer_addr_failure :
    SessionAction.writeClient handshakeBytes ∉ (handleClient false true true 0 [] []).1 ∧
    (handleClient false true true 0 [] []).2 = Outcome.err := by
  constructor
  · simp [handleClient]
  · rfl

/-- C2 amended: whenever the initial peer-address query succeeds (the only
fallible step before it), the proxy's first two actions are the accept log
and the successful write of exactly the 67-byte sequence
"HTTP/1.1 101 Switching Protocols\r\nContent-Length: 1048576000000\r\n\r\n"
to the client — before any dial attempt and independent of anything the
client sent; if that write fails no dial ever occurs. -/
theorem handshake_exact_before_dial (dialOk : Bool) (K : Nat) (c2s s2c : List Event) :
    (handleClient true true dialOk K c2s s2c).1.take 2 =
      [SessionAction.logAccept, SessionAction.writeClient handshakeBytes] ∧
    SessionAction.dial ∉ (handleClient true false dialOk K c2s s2c).1 ∧
    handshakeBytes =
      [72, 84, 84, 80, 47, 49, 46, 49, 32, 49, 48, 49, 32, 83, 119, 105, 116,
       99, 104, 105, 110, 103, 32, 80, 114, 111, 116, 111, 99, 111, 108, 115,
       13, 10, 67, 111, 110, 116, 101, 110, 116, 45, 76, 101, 110, 103, 116,
       104, 58, 32, 49, 48, 52, 56, 53, 55, 54, 48, 48, 48, 48, 48, 48, 13,
       10, 13, 10] := by
  refine ⟨?_, by simp [handleClient], by decide⟩
  cases dialOk with
  | false => rfl
  | true =>
    rcases h : pumpDone (c2sLoop K 0 c2s).2.2 && pumpDone (s2cLoop s2c).2 <;>
      simp [handleClient, h]

/-- C3 counterexample: there is no admission gate — after two consecutive
successful accepts with neither session finished, two sessions are live
simultaneously and neither accept blocked, so with max_connections = 1 the
bound is already violated (no such configuration even exists in `Args`). -/
theorem two_sessions_live_no_gate :
    acceptLoopRun [NetEvent.accepted, NetEvent.accepted] 0 0 = (2, 2, false) ∧
    ¬ (2 ≤ 1) := by
  exact ⟨rfl, by omega⟩

/-- C3 amended: the accept loop imposes no concurrency bound: every
successful accept spawns a session immediately, so for every M a schedule of
M + 1 accepts (with no session finishing) yields M + 1 concurrently live
sessions, exceeding M; nothing ever blocks an accepted connection. -/
theorem no_connection_limit (M : Nat) :
    acceptLoopRun (List.replicate (M + 1) NetEvent.accepted) 0 0 = (M + 1, M + 1, false) ∧
    M < M + 1 := by
  refine ⟨?_, Nat.lt_succ_self M⟩
  simpa using acceptLoop_replicate (M + 1) 0 0

/-- C4 counterexample: a fully idle session (both peers silent, no pump ever
observes an event) is never torn down: `handle_client` is still awaiting
`try_join`, no socket has been closed, and this is independent of elapsed
time because the code contains no timer at all. -/
theorem idle_session_never_torn_down :
    (handleClient true true true 0 [] []).2 = Outcome.running ∧
    SessionAction.closeSockets ∉ (handleClient true true true 0 [] []).1 := by
  constructor
  · rfl
  · simp [handleClient, c2sLoop, s2cLoop, pumpDone]

/-- C4 amended: the code has no idle timeout (`Args` has no timeout field
and the session logic involves no timer): after a successful handshake and
dial the session returns Ok exactly when both pumps have completed, a
condition depending only on the pumps' own event streams and never on
wall-clock time, and a session with no events in either direction stays
running indefinitely. -/
theorem session_ends_only_with_pumps (K : Nat) (c2s s2c : List Event) :
    ((handleClient true true true K c2s s2c).2 = Outcome.ok ↔
      (pumpDone (c2sLoop K 0 c2s).2.2 = true ∧ pumpDone (s2cLoop s2c).2 = true)) ∧
    (handleClient true true true K [] []).2 = Outcome.running := by
  constructor
  · simp only [handleClient, Bool.not_eq_false, if_neg, reduceIte]
    rcases h1 : pumpDone (c2sLoop K 0 c2s).2.2 <;>
      rcases h2 : pumpDone (s2cLoop s2c).2 <;> simp [h1, h2]
  · rfl

/-- C5 counterexample: an accept error terminates the accept loop: with the
schedule [acceptErr, accepted] the loop ends at the error having spawned
nothing and the subsequent connection is never accepted, whereas a lone
successful accept spawns a session — so the loop does not continue past an
accept error. -/
theorem accept_error_ends_loop :
    acceptLoopRun [NetEvent.acceptErr, NetEvent.accepted] 0 0 = (0, 0, true) ∧
    acceptLoopRun [NetEvent.accepted] 0 0 = (1, 1, false) := by
  exact ⟨rfl, rfl⟩

/-- C5 amended: a bind failure at startup is fatal (no accept loop runs),
and an accept error is also fatal: the `?` propagates out of `main`, so the
loop's result is independent of any events after the first accept error and
the loop terminates with the error flag set. -/
theorem accept_error_fatal (pre rest : List NetEvent) (s l : Nat)
    (h : NetEvent.acceptErr ∉ pre) :
    mainRun false rest = none ∧
    acceptLoopRun (pre ++ NetEvent.acceptErr :: rest) s l =
      acceptLoopRun (pre ++ [NetEvent.acceptErr]) s l ∧
    (acceptLoopRun (pre ++ NetEvent.acceptErr :: rest) s l).2.2 = true :=
  ⟨rfl, acceptLoop_err_stops pre rest [] s l h, acceptLoop_err_flag pre rest s l h⟩

/-- Witness for accept_error_fatal at pre = [accepted], rest = [accepted]. -/
theorem accept_error_fatal_witness :
    NetEvent.acceptErr ∉ [NetEvent.accepted] ∧
    (mainRun false [NetEvent.accepted] = none ∧
     acceptLoopRun ([NetEvent.accepted] ++ NetEvent.acceptErr :: [NetEvent.accepted]) 0 0 =
       acceptLoopRun ([NetEvent.accepted] ++ [NetEvent.acceptErr]) 0 0 ∧
     (acceptLoopRun ([NetEvent.accepted] ++ NetEvent.acceptErr :: [NetEvent.accepted]) 0 0).2.2 = true) :=
  ⟨by decide, accept_error_fatal [NetEvent.accepted] [NetEvent.accepted] 0 0 (by decide)⟩

/-- C6: if the handshake write to the client fails, the session returns an
error before any dial is attempted — no dial attempt (successful or failed)
appears in the trace, and the sockets the session owns are closed on
return. -/
theorem handshake_failure_aborts_before_dial (dialOk : Bool) (K : Nat) (c2s s2c : List Event) :
    (handleClient true false dialOk K c2s s2c).2 = Outcome.err ∧
    SessionAction.dial ∉ (handleClient true false dialOk K c2s s2c).1 ∧
    SessionAction.dialFail ∉ (handleClient true false dialOk K c2s s2c).1 ∧
    SessionAction.closeSockets ∈ (handleClient true false dialOk K c2s s2c).1 := by
  refine ⟨rfl, ?_, ?_, ?_⟩ <;> simp [handleClient]

/-- C7 counterexample: a read error in the client-to-server pump does not
trigger any shutdown of its sibling: with the client erroring immediately
and the server delivering two chunks and staying open, the sibling pump has
forwarded both chunks and is still live, and the session is still running —
it hangs with the other pump live instead of reaching teardown. -/
theorem sibling_not_cancelled :
    (c2sLoop 0 0 [Event.err]).2.2 = Exit.readErrBreak ∧
    s2cLoop [Event.data [1] false, Event.data [2] false] = ([[1], [2]], Exit.running) ∧
    (handleClient true true true 0 [Event.err]
      [Event.data [1] false, Event.data [2] false]).2 = Outcome.running := by
  exact ⟨rfl, rfl, rfl⟩

/-- C7 amended: a per-chunk read error terminates only the pump it occurs
in; there is no in-process cancellation of the sibling — the session's
outcome is thereafter governed solely by whether the sibling pump completes
on its own events (the errored pump's dropped write half merely sends EOF to
the remote peer), so the session reaches teardown only when the sibling also
finishes. -/
theorem pump_error_terminates_only_that_pump (K : Nat) (rest s2cEvs : List Event) :
    (c2sLoop K 0 (Event.err :: rest)).2.2 = Exit.readErrBreak ∧
    (handleClient true true true K (Event.err :: rest) s2cEvs).2 =
      (if pumpDone (s2cLoop s2cEvs).2 then Outcome.ok else Outcome.running) := by
  refine ⟨rfl, ?_⟩
  simp only [handleClient, reduceIte]
  rcases h : pumpDone (s2cLoop s2cEvs).2 <;> simp [h, c2sLoop, pumpDone]

/-- C8: the destination-to-client pump applies no skip filtering and is the
identity on the byte stream: every chunk read is forwarded unmodified in
exactly the order read (FIFO), both while the stream is open and when it
ends in a clean EOF. -/
theorem s2c_identity_fifo (cs : List (List Nat)) :
    (s2cLoop (dataEvents cs)).1 = cs ∧
    (s2cLoop (dataEvents cs ++ [Event.eof])).1 = cs ∧
    (s2cLoop (dataEvents cs ++ [Event.eof])).2 = Exit.eofBreak := by
  refine ⟨?_, ?_, ?_⟩
  · have h := s2c_app cs []
    simpa [s2cLoop] using congrArg Prod.fst h
  · simp [s2c_app, s2cLoop]
  · simp [s2c_app, s2cLoop]

/-- C9: for a session with skip count K, starting from the source's initial
counter value 0 the `packet_count` variable never exceeds K at any point in
the pump loop, and once forwarding has begun (counter equal to K) the
counter is never incremented again, so a later read can never be
re-skipped. -/
theorem skip_counter_clamped (K : Nat) (evs evs2 : List Event) :
    (∀ v ∈ (c2sLoop K 0 evs).2.1, v ≤ K) ∧
    (∀ v ∈ (c2sLoop K K evs2).2.1, v = K) :=
  ⟨c2s_counter_le evs K 0 (Nat.zero_le K), c2s_counter_const evs2 K⟩

/-- Witness for skip_counter_clamped at K = 1 with two data chunks. -/
theorem skip_counter_clamped_witness :
    ((1 : Nat) ∈ (c2sLoop 1 0 [Event.data [9] false, Event.data [8] false]).2.1) ∧
    (1 : Nat) ≤ 1 :=
  ⟨by decide,
   (skip_counter_clamped 1 [Event.data [9] false, Event.data [8] false] []).1 1 (by decide)⟩

/-- C10: a read or write error inside either pump does not make the session
return an error: the errored pump breaks out of its loop normally, and once
both pumps are complete the session's trace and result (the terminating log
line included) are exactly those of the error-free clean-EOF case, with the
session returning Ok. -/
theorem pump_error_session_ok (K : Nat) (c2sEvs s2cEvs : List Event)
    (_herr : (c2sLoop K 0 c2sEvs).2.2 = Exit.readErrBreak ∨
            (c2sLoop K 0 c2sEvs).2.2 = Exit.writeErrBreak ∨
            (s2cLoop s2cEvs).2 = Exit.readErrBreak ∨
            (s2cLoop s2cEvs).2 = Exit.writeErrBreak)
    (h1 : pumpDone (c2sLoop K 0 c2sEvs).2.2 = true)
    (h2 : pumpDone (s2cLoop s2cEvs).2 = true) :
    handleClient true true true K c2sEvs s2cEvs =
      handleClient true true true 0 [Event.eof] [Event.eof] := by
  have hc : (pumpDone (c2sLoop K 0 c2sEvs).2.2 && pumpDone (s2cLoop s2cEvs).2) = true := by
    rw [h1, h2]; rfl
  unfold handleClient
  rw [hc]
  rfl

/-- Witness for pump_error_session_ok: client read error, server clean EOF. -/
theorem pump_error_session_ok_witness :
    ((c2sLoop 0 0 [Event.err]).2.2 = Exit.readErrBreak ∨
     (c2sLoop 0 0 [Event.err]).2.2 = Exit.writeErrBreak ∨
     (s2cLoop [Event.eof]).2 = Exit.readErrBreak ∨
     (s2cLoop [Event.eof]).2 = Exit.writeErrBreak) ∧
    pumpDone (c2sLoop 0 0 [Event.err]).2.2 = true ∧
    pumpDone (s2cLoop [Event.eof]).2 = true ∧
    handleClient true true true 0 [Event.err] [Event.eof] =
      handleClient true true true 0 [Event.eof] [Event.eof] :=
  ⟨Or.inl rfl, rfl, rfl,
   pump_error_session_ok 0 [Event.err] [Event.eof] (Or.inl rfl) rfl rfl⟩
